import Mathlib

/-!
Verification of the ngv/redis-client RingoJS Redis client
(src/lib/ngv/redis.js, second revision of the file, the one the spec's
line references point at).

Modelling conventions, used consistently below:
* JavaScript strings are modelled as `List Nat` of UTF-16 code units
  (all literals appearing in the client are ASCII, where code unit =
  code point = byte value).
* Wire byte streams are `List Nat` of byte values; end of stream is the
  empty list (`InputStream.read()` returning -1).
* Thrown JavaScript errors are modelled with `Except` and the `RErr`
  type; `RErr.fatalErr` marks errors raised through `Redis.prototype.fatal`
  (which first closes and nulls the connection), `RErr.errThrow` marks a
  plain `throw new Error(msg)`.
* `String.fromCharCode` applies ToUint16; stream bytes are 0..255 so it
  is the identity on them and is omitted.
-/

/-- CRLF as byte values / code units. -/
def crlfB : List Nat := [13, 10]

def isDigitCode (c : Nat) : Bool := 48 ≤ c && c ≤ 57

/-- Code units matched by the JavaScript regex class backslash-s
(the client only ever feeds ASCII text to these regexes, so the ASCII
whitespace set plus NBSP is a faithful model). -/
def isJsWs (c : Nat) : Bool :=
  c = 32 || c = 9 || c = 10 || c = 11 || c = 12 || c = 13 || c = 160

/-- Fuelled digit extraction; the fuel is a recursion bound only (any
fuel above the digit count gives the same result). -/
def natStrGo : Nat → Nat → List Nat
  | 0, _ => []
  | fuel + 1, n =>
    if n < 10 then [48 + n]
    else natStrGo fuel (n / 10) ++ [48 + n % 10]

/-- Decimal representation of a natural number, as code units: the JS
number-to-string conversion used by string concatenation like
`'*'+(commandArgs.length+1)`. -/
def natStr (n : Nat) : List Nat := natStrGo (n + 1) n

/-- Digit-prefix parser: the core of JS `parseInt(str, 10)` after
whitespace and sign handling; returns `none` when no digits (NaN). -/
def parseDigitsLead (s : List Nat) : Option Nat :=
  let ds := s.takeWhile isDigitCode
  if ds = [] then none
  else some (ds.foldl (fun a d => a * 10 + (d - 48)) 0)

/-- JS `parseInt(str, 10)`: skip leading whitespace, optional sign,
then the maximal digit run; `none` models NaN. -/
def parseIntJS (s : List Nat) : Option Int :=
  match s.dropWhile isJsWs with
  | 45 :: t => (parseDigitsLead t).map (fun n => -(n : Int))
  | 43 :: t => (parseDigitsLead t).map (fun n => (n : Int))
  | t => (parseDigitsLead t).map (fun n => (n : Int))

/-- UTF-8 encoding of a UTF-16 code-unit sequence, as performed by
`new java.lang.String(s).getBytes('UTF-8')` and by the connection's
`OutputStreamWriter(..., UTF-8)`: surrogate pairs become one 4-byte
sequence, an unpaired surrogate becomes `?` (0x3F). -/
def utf8EncodeUnits : List Nat → List Nat
  | [] => []
  | [u] =>
    if u < 0x80 then [u]
    else if u < 0x800 then [0xC0 + u / 64, 0x80 + u % 64]
    else if u < 0xD800 then [0xE0 + u / 4096, 0x80 + (u / 64) % 64, 0x80 + u % 64]
    else if u < 0xE000 then [0x3F]
    else [0xE0 + u / 4096, 0x80 + (u / 64) % 64, 0x80 + u % 64]
  | u :: v :: rest =>
    if u < 0x80 then u :: utf8EncodeUnits (v :: rest)
    else if u < 0x800 then
      (0xC0 + u / 64) :: (0x80 + u % 64) :: utf8EncodeUnits (v :: rest)
    else if u < 0xD800 then
      (0xE0 + u / 4096) :: (0x80 + (u / 64) % 64) :: (0x80 + u % 64) ::
        utf8EncodeUnits (v :: rest)
    else if u < 0xDC00 then
      if 0xDC00 ≤ v ∧ v < 0xE000 then
        (0xF0 + (0x10000 + (u - 0xD800) * 1024 + (v - 0xDC00)) / 262144) ::
        (0x80 + ((0x10000 + (u - 0xD800) * 1024 + (v - 0xDC00)) / 4096) % 64) ::
        (0x80 + ((0x10000 + (u - 0xD800) * 1024 + (v - 0xDC00)) / 64) % 64) ::
        (0x80 + (0x10000 + (u - 0xD800) * 1024 + (v - 0xDC00)) % 64) ::
          utf8EncodeUnits rest
      else 0x3F :: utf8EncodeUnits (v :: rest)
    else if u < 0xE000 then 0x3F :: utf8EncodeUnits (v :: rest)
    else
      (0xE0 + u / 4096) :: (0x80 + (u / 64) % 64) :: (0x80 + u % 64) ::
        utf8EncodeUnits (v :: rest)

/-- UTF-8 decoding back to UTF-16 code units, as performed by
`new java.lang.String(buf, Charset.forName("UTF-8"))`: well-formed
sequences decode to their code units (4-byte sequences to a surrogate
pair); a malformed byte produces U+FFFD (the replacement policy on how
many bytes an ill-formed run consumes is abstracted to one byte). -/
def utf8Dec2 (b0 b1 : Nat) : Nat := (b0 - 0xC0) * 64 + (b1 - 0x80)

def utf8Dec3 (b0 b1 b2 : Nat) : Nat := (b0 - 0xE0) * 4096 + (b1 - 0x80) * 64 + (b2 - 0x80)

def utf8Dec4 (b0 b1 b2 b3 : Nat) : Nat :=
  (b0 - 0xF0) * 262144 + (b1 - 0x80) * 4096 + (b2 - 0x80) * 64 + (b3 - 0x80)

def isCont (b : Nat) : Prop := 0x80 ≤ b ∧ b < 0xC0

instance (b : Nat) : Decidable (isCont b) := by unfold isCont; infer_instance

/-- UTF-8 decoding back to UTF-16 code units, as performed by
`new java.lang.String(buf, Charset.forName("UTF-8"))`: well-formed
sequences decode to their code units (4-byte sequences to a surrogate
pair); a malformed byte produces U+FFFD (the replacement policy on how
many bytes an ill-formed run consumes is abstracted to one byte, and a
multi-byte sequence truncated by the end of input to a single U+FFFD). -/
def utf8DecodeUnits : List Nat → List Nat
  | [] => []
  | [b0] => if b0 < 0x80 then [b0] else [0xFFFD]
  | [b0, b1] =>
    if b0 < 0x80 then b0 :: utf8DecodeUnits [b1]
    else if b0 < 0xC2 then 0xFFFD :: utf8DecodeUnits [b1]
    else if b0 < 0xE0 then
      if isCont b1 then [utf8Dec2 b0 b1]
      else 0xFFFD :: utf8DecodeUnits [b1]
    else [0xFFFD]
  | [b0, b1, b2] =>
    if b0 < 0x80 then b0 :: utf8DecodeUnits [b1, b2]
    else if b0 < 0xC2 then 0xFFFD :: utf8DecodeUnits [b1, b2]
    else if b0 < 0xE0 then
      if isCont b1 then utf8Dec2 b0 b1 :: utf8DecodeUnits [b2]
      else 0xFFFD :: utf8DecodeUnits [b1, b2]
    else if b0 < 0xF0 then
      if isCont b1 ∧ isCont b2 then
        if utf8Dec3 b0 b1 b2 < 0x800 ∨
           (0xD800 ≤ utf8Dec3 b0 b1 b2 ∧ utf8Dec3 b0 b1 b2 < 0xE000) then [0xFFFD]
        else [utf8Dec3 b0 b1 b2]
      else 0xFFFD :: utf8DecodeUnits [b1, b2]
    else [0xFFFD]
  | b0 :: b1 :: b2 :: b3 :: rest =>
    if b0 < 0x80 then b0 :: utf8DecodeUnits (b1 :: b2 :: b3 :: rest)
    else if b0 < 0xC2 then 0xFFFD :: utf8DecodeUnits (b1 :: b2 :: b3 :: rest)
    else if b0 < 0xE0 then
      if isCont b1 then utf8Dec2 b0 b1 :: utf8DecodeUnits (b2 :: b3 :: rest)
      else 0xFFFD :: utf8DecodeUnits (b1 :: b2 :: b3 :: rest)
    else if b0 < 0xF0 then
      if isCont b1 ∧ isCont b2 then
        if utf8Dec3 b0 b1 b2 < 0x800 ∨
           (0xD800 ≤ utf8Dec3 b0 b1 b2 ∧ utf8Dec3 b0 b1 b2 < 0xE000) then
          0xFFFD :: utf8DecodeUnits (b3 :: rest)
        else utf8Dec3 b0 b1 b2 :: utf8DecodeUnits (b3 :: rest)
      else 0xFFFD :: utf8DecodeUnits (b1 :: b2 :: b3 :: rest)
    else if b0 < 0xF8 then
      if (isCont b1 ∧ isCont b2) ∧ isCont b3 then
        if 0x10000 ≤ utf8Dec4 b0 b1 b2 b3 ∧ utf8Dec4 b0 b1 b2 b3 < 0x110000 then
          (0xD800 + (utf8Dec4 b0 b1 b2 b3 - 0x10000) / 1024) ::
          (0xDC00 + (utf8Dec4 b0 b1 b2 b3 - 0x10000) % 1024) ::
            utf8DecodeUnits rest
        else 0xFFFD :: utf8DecodeUnits rest
      else 0xFFFD :: utf8DecodeUnits (b1 :: b2 :: b3 :: rest)
    else 0xFFFD :: utf8DecodeUnits (b1 :: b2 :: b3 :: rest)

/-- Well-formed UTF-16: every code unit is below 0x10000 and every high
surrogate is immediately followed by a low surrogate. -/
def wfUtf16 : List Nat → Bool
  | [] => true
  | [u] =>
    if u < 0xD800 then true
    else if u < 0xE000 then false
    else decide (u < 0x10000)
  | u :: v :: rest =>
    if u < 0xD800 then wfUtf16 (v :: rest)
    else if u < 0xDC00 then
      if 0xDC00 ≤ v ∧ v < 0xE000 then wfUtf16 rest else false
    else if u < 0xE000 then false
    else if u < 0x10000 then wfUtf16 (v :: rest)
    else false

/-- Last two elements of a list, `buf.substring(buf.length()-2, buf.length())`. -/
def lastTwo (l : List Nat) : List Nat := l.drop (l.length - 2)

/-- All but the last two elements, `buf.substring(0, buf.length()-2)`. -/
def dropLastTwo (l : List Nat) : List Nat := l.take (l.length - 2)

/-- Whether the byte sequence contains an adjacent CR LF pair. -/
def containsCRLF : List Nat → Bool
  | [] => false
  | [_] => false
  | a :: b :: rest => (a == 13 && b == 10) || containsCRLF (b :: rest)

/-- Loop body of `readToCRLF` (src/lib/ngv/redis.js:888): accumulate one
byte at a time; once the buffer holds more than two characters and its
last two are CR LF, return the buffer without them.  Running off the end
of the stream falls out of the loop and returns no value (JS undefined),
modelled as `none`.  Also returns the unconsumed remainder of the stream. -/
def readToCRLFAux : List Nat → List Nat → Option (List Nat) × List Nat
  | [], _ => (none, [])
  | c :: rest, buf =>
    let buf' := buf ++ [c]
    if 2 < buf'.length then
      if lastTwo buf' = [13, 10] then (some (dropLastTwo buf'), rest)
      else readToCRLFAux rest buf'
    else readToCRLFAux rest buf'

/-- `readToCRLF(stream)` from src/lib/ngv/redis.js:888-901. -/
def readToCRLF (stream : List Nat) : Option (List Nat) × List Nat :=
  readToCRLFAux stream []

/-- Decoded JavaScript values flowing out of the reply handlers and the
result post-processor. `vFloatStr` records a `parseFloat` result by its
source text (floating-point arithmetic is never performed on it).
`vObj` is the key/value object built by the `info` post-processing. -/
inductive RValue where
  | vNull
  | vUndefined
  | vBool (b : Bool)
  | vInt (n : Int)
  | vNaN
  | vStr (s : List Nat)
  | vArr (elems : List RValue)
  | vObj (fields : List (List Nat × RValue))
  | vFloatStr (s : List Nat)

/-- Thrown JS errors. `fatalErr` is raised through `Redis.prototype.fatal`
(close + null the connection first); `errThrow` is a plain
`throw new Error(msg)`. Both are ordinary `Error` objects at runtime and
are caught alike by every `catch (e)` in the client. -/
inductive RErr where
  | fatalErr (msg : List Nat)
  | errThrow (msg : List Nat)
  deriving DecidableEq

/-- Observable I/O actions, recorded for the connection lifecycle claims:
socket creation, a successful write+flush of a command string, socket close. -/
inductive Event where
  | evOpen
  | evWrite (data : List Nat)
  | evClose
  deriving DecidableEq

/-- Behaviour of one TCP connection: whether writes on it raise an
IOException, and the reply bytes its input stream serves (exhaustion of
the list models `read()` returning -1, i.e. the server closed the
connection). -/
structure ConnState where
  writeFails : Bool
  input : List Nat
  deriving DecidableEq

/-- The mutable state of a `Redis` object plus its environment:
`conn` is `this._conn` (with `_out`/`_inp` bound to it), `world` is the
behaviour each future `new java.net.Socket(...)` will exhibit, in order,
`trace` records I/O events, `currentCmd` is `this.currentCmd`. -/
structure RedisState where
  conn : Option ConnState
  world : List ConnState
  trace : List Event
  currentCmd : List Nat
  deriving DecidableEq

/-- The command table `commands` of src/lib/ngv/redis.js:559-574
(note: `select`, `sort` and `quit` are special-cased methods and are not
in the table). -/
def commandsList : List (List Nat) := [
  [97, 117, 116, 104],  -- auth
  [103, 101, 116],  -- get
  [109, 103, 101, 116],  -- mget
  [105, 110, 99, 114],  -- incr
  [105, 110, 99, 114, 98, 121],  -- incrby
  [100, 101, 99, 114],  -- decr
  [100, 101, 99, 114, 98, 121],  -- decrby
  [101, 120, 105, 115, 116, 115],  -- exists
  [100, 101, 108],  -- del
  [116, 121, 112, 101],  -- type
  [107, 101, 121, 115],  -- keys
  [114, 97, 110, 100, 111, 109, 107, 101, 121],  -- randomkey
  [114, 101, 110, 97, 109, 101],  -- rename
  [114, 101, 110, 97, 109, 101, 110, 120],  -- renamenx
  [100, 98, 115, 105, 122, 101],  -- dbsize
  [101, 120, 112, 105, 114, 101],  -- expire
  [116, 116, 108],  -- ttl
  [108, 108, 101, 110],  -- llen
  [108, 114, 97, 110, 103, 101],  -- lrange
  [108, 116, 114, 105, 109],  -- ltrim
  [108, 105, 110, 100, 101, 120],  -- lindex
  [108, 112, 111, 112],  -- lpop
  [114, 112, 111, 112],  -- rpop
  [115, 99, 97, 114, 100],  -- scard
  [115, 105, 110, 116, 101, 114],  -- sinter
  [115, 105, 110, 116, 101, 114, 115, 116, 111, 114, 101],  -- sinterstore
  [115, 117, 110, 105, 111, 110],  -- sunion
  [115, 117, 110, 105, 111, 110, 115, 116, 111, 114, 101],  -- sunionstore
  [115, 109, 101, 109, 98, 101, 114, 115],  -- smembers
  [109, 111, 118, 101],  -- move
  [102, 108, 117, 115, 104, 100, 98],  -- flushdb
  [102, 108, 117, 115, 104, 97, 108, 108],  -- flushall
  [115, 97, 118, 101],  -- save
  [98, 103, 115, 97, 118, 101],  -- bgsave
  [108, 97, 115, 116, 115, 97, 118, 101],  -- lastsave
  [115, 104, 117, 116, 100, 111, 119, 110],  -- shutdown
  [105, 110, 102, 111],  -- info
  [112, 105, 110, 103],  -- ping
  [115, 101, 116],  -- set
  [103, 101, 116, 115, 101, 116],  -- getset
  [115, 101, 116, 110, 120],  -- setnx
  [114, 112, 117, 115, 104],  -- rpush
  [108, 112, 117, 115, 104],  -- lpush
  [108, 115, 101, 116],  -- lset
  [108, 114, 101, 109],  -- lrem
  [115, 97, 100, 100],  -- sadd
  [115, 114, 101, 109],  -- srem
  [115, 109, 111, 118, 101],  -- smove
  [115, 105, 115, 109, 101, 109, 98, 101, 114],  -- sismember
  [122, 97, 100, 100],  -- zadd
  [122, 114, 101, 109],  -- zrem
  [122, 115, 99, 111, 114, 101],  -- zscore
  [122, 99, 97, 114, 100],  -- zcard
  [122, 105, 110, 99, 114, 98, 121]]  -- zincrby

def quitStr : List Nat := [113, 117, 105, 116]  -- quit
def okStr : List Nat := [79, 75]  -- OK
def errSpaceStr : List Nat := [69, 82, 82, 32]  -- the token ERR followed by a space
def badHappenedStr : List Nat :=
  [115, 111, 109, 101, 116, 104, 105, 110, 103, 32, 98, 97, 100, 32,
   104, 97, 112, 112, 101, 110, 101, 100, 58, 32]  -- something bad happened colon space
def timeoutMsg : List Nat :=
  [82, 101, 100, 105, 115, 32, 99, 111, 110, 110, 101, 99, 116, 105, 111,
   110, 32, 116, 105, 109, 101, 111, 117, 116]  -- Redis connection timeout
def invalidTypeMsg : List Nat :=
  [105, 110, 118, 97, 108, 105, 100, 32, 82, 101, 100, 105, 115, 32, 116,
   121, 112, 101]  -- invalid Redis type ...
def writeErrMsg : List Nat :=
  [69, 114, 114, 111, 114, 32, 111, 99, 99, 117, 114, 101, 100, 32, 112,
   114, 111, 99, 101, 115, 115, 105, 110, 103, 32, 67, 77, 68]  -- Error occured processing CMD
def readErrMsg : List Nat :=
  [69, 114, 114, 111, 114, 32, 100, 117, 114, 105, 110, 103, 32, 114, 101,
   115, 112, 111, 110, 115, 101, 83, 116, 114, 101, 97, 109, 46, 114, 101,
   97, 100]  -- Error during responseStream.read
def connNotOpenMsg : List Nat :=
  [99, 111, 110, 110, 101, 99, 116, 105, 111, 110, 32, 105, 115, 32, 110,
   111, 116, 32, 111, 112, 101, 110]  -- connection is not open
def connectFailedMsg : List Nat :=
  [99, 111, 110, 110, 101, 99, 116, 32, 102, 97, 105, 108, 101, 100]  -- connect failed
def unknownCmdMsg : List Nat :=
  [117, 110, 107, 110, 111, 119, 110, 32, 99, 111, 109, 109, 97, 110, 100,
   32]  -- unknown command followed by a space
def undefLineMsg : List Nat :=
  [84, 121, 112, 101, 69, 114, 114, 111, 114]  -- TypeError (indexOf on undefined)
def infoStr : List Nat := [105, 110, 102, 111]  -- info
def lastsaveStr : List Nat := [108, 97, 115, 116, 115, 97, 118, 101]  -- lastsave
def setnxStr : List Nat := [115, 101, 116, 110, 120]  -- setnx
def saddStr : List Nat := [115, 97, 100, 100]  -- sadd
def sismemberStr : List Nat := [115, 105, 115, 109, 101, 109, 98, 101, 114]  -- sismember
def zaddStr : List Nat := [122, 97, 100, 100]  -- zadd
def zremStr : List Nat := [122, 114, 101, 109]  -- zrem

/-- `formatMultiBulkCommand(commandName, commandArgs)`
(src/lib/ngv/redis.js:597-612), producing the JS string that will later
be written through the UTF-8 `OutputStreamWriter`.  Note the asymmetry of
the source: the command name's declared length is `commandName.length`
(its UTF-16 length), while each argument's declared length is
`new java.lang.String(arg).getBytes('UTF-8').length` (its UTF-8 byte
length). -/
def formatMultiBulkCommand (commandName : List Nat) (commandArgs : List (List Nat)) :
    List Nat :=
  42 :: natStr (commandArgs.length + 1) ++ crlfB ++
  (36 :: natStr commandName.length ++ crlfB ++ commandName ++ crlfB) ++
  (commandArgs.flatMap fun a =>
    36 :: natStr (utf8EncodeUnits a).length ++ crlfB ++ a ++ crlfB)

/-- Modelled from the spec (section 4.1): the RESP multibulk wire framing
in which every element, the command name included, declares its length in
encoded UTF-8 bytes and carries exactly those bytes.  Used as the
reference point the encoder output is compared against. -/
def respMultiBulkFrame (elems : List (List Nat)) : List Nat :=
  42 :: natStr elems.length ++ crlfB ++
  (elems.flatMap fun e =>
    36 :: natStr (utf8EncodeUnits e).length ++ crlfB ++ utf8EncodeUnits e ++ crlfB)

/-- Split on the two-character sequence CR LF: JS `result.split('\r\n')`. -/
def splitOnCRLF : List Nat → List (List Nat)
  | 13 :: 10 :: rest => [] :: splitOnCRLF rest
  | c :: rest =>
    match splitOnCRLF rest with
    | h :: t => (c :: h) :: t
    | [] => [[c]]
  | [] => [[]]

/-- Split on a colon: JS `line.split(':')`. -/
def splitOnColon : List Nat → List (List Nat)
  | 58 :: rest => [] :: splitOnColon rest
  | c :: rest =>
    match splitOnColon rest with
    | h :: t => (c :: h) :: t
    | [] => [[c]]
  | [] => [[]]

/-- Anchored match of the integer-sniffing regex of `maybeConvertToNumber`:
optional whitespace, one or more digits, optional whitespace. -/
def intRegexTest (s : List Nat) : Bool :=
  let t := s.dropWhile isJsWs
  let ds := t.takeWhile isDigitCode
  ds ≠ [] && (t.dropWhile isDigitCode).all isJsWs

/-- Anchored match of the float-sniffing regex of `maybeConvertToNumber`:
optional whitespace, digits, a dot, optional digits, optional whitespace. -/
def floatRegexTest (s : List Nat) : Bool :=
  let t := s.dropWhile isJsWs
  let ds := t.takeWhile isDigitCode
  ds ≠ [] &&
    (match t.drop ds.length with
     | 46 :: u => (u.dropWhile isDigitCode).all isJsWs
     | _ => false)

/-- Whether a float-regex-matched text denotes the value 0 (all its
digits are the digit zero), so that `parseFloat(s) === 0`. -/
def floatTextZero (s : List Nat) : Bool :=
  (s.filter isDigitCode).all (· = 48)

/-- `maybeConvertToNumber(str)` (src/lib/ngv/redis.js:577-585) lifted to
decoded values: the regex test coerces its input to a string first, so a
number round-trips through its own decimal text and comes back unchanged;
for values of other shapes the function is likewise the identity (they
are modelled as returned unchanged; the client only ever feeds it the
`info` field texts and the `lastsave` integer reply). -/
def maybeConvertToNumberV (v : RValue) : RValue :=
  match v with
  | RValue.vStr s =>
    if intRegexTest s then
      match parseIntJS s with
      | some n => RValue.vInt n
      | none => RValue.vStr s
    else if floatRegexTest s then RValue.vFloatStr s
    else RValue.vStr s
  | other => other

/-- JS strict equality `result === 0` against the number literal 0. -/
def jsStrictEqZero (v : RValue) : Bool :=
  match v with
  | RValue.vInt n => n == 0
  | RValue.vFloatStr s => floatTextZero s
  | _ => false

/-- `postProcessResults(result, cmd)` (src/lib/ngv/redis.js:782-816).
The `info` branch calls `result.split`, a TypeError when the decoded
result is not a string; that throw is modelled as `Except.error`. -/
def postProcessResults (result : RValue) (cmd : List Nat) : Except RErr RValue :=
  if cmd = infoStr then
    match result with
    | RValue.vStr s =>
      let fields := (splitOnCRLF s).foldl
        (fun acc line =>
          match splitOnColon line with
          | [k, v] => acc ++ [(k, maybeConvertToNumberV (RValue.vStr v))]
          | _ => acc) []
      Except.ok (RValue.vObj fields)
    | _ => Except.error (RErr.errThrow undefLineMsg)
  else if cmd = lastsaveStr then
    Except.ok (maybeConvertToNumberV result)
  else if cmd = setnxStr || cmd = saddStr || cmd = sismemberStr ||
          cmd = zaddStr || cmd = zremStr then
    Except.ok (if jsStrictEqZero result then RValue.vBool false else RValue.vBool true)
  else
    Except.ok result

/-- `handleBulkReply(responseStream)` (src/lib/ngv/redis.js:707-723).
`parseInt` of an exhausted line (undefined) is NaN; Rhino then coerces
NaN to the Java int 0 in `Array.newInstance`, so that path reads an
empty payload; a negative declared length other than -1 raises a Java
NegativeArraySizeException.  `responseStream.read(buf)` fills at most
the available bytes and leaves the zero-initialised rest of the buffer
untouched, and `skip(2)` discards the trailing CR LF. -/
def handleBulkReply (stream : List Nat) : Except RErr RValue × List Nat :=
  match readToCRLF stream with
  | (lineOpt, s1) =>
    let vl : Option Int := match lineOpt with
      | some line => parseIntJS line
      | none => none
    match vl with
    | some v =>
      if v = -1 then (Except.ok RValue.vNull, s1)
      else if v < 0 then (Except.error (RErr.errThrow undefLineMsg), s1)
      else
        let n := v.toNat
        let payload := s1.take n ++ List.replicate (n - s1.length) 0
        (Except.ok (RValue.vStr (utf8DecodeUnits payload)), (s1.drop n).drop 2)
    | none =>
      (Except.ok (RValue.vStr []), s1.drop 2)

/-- The counted loop of `handleMultiBulkReply`: for each element skip the
leading `$` type byte and read one bulk reply, appending it (string or
null) to the entries collected so far via `entries.concat(bulkReply)`. -/
def handleMultiBulkLoop : Nat → List Nat → List RValue → Except RErr (List RValue) × List Nat
  | 0, stream, entries => (Except.ok entries, stream)
  | k + 1, stream, entries =>
    match handleBulkReply (stream.drop 1) with
    | (Except.ok v, s2) => handleMultiBulkLoop k s2 (entries ++ [v])
    | (Except.error e, s2) => (Except.error e, s2)

/-- `handleMultiBulkReply(responseStream)` (src/lib/ngv/redis.js:725-743).
A declared count of -1 returns the one-element array `[ null ]`; a NaN
count (including the exhausted-stream undefined line) makes the loop
guard `i < count` false, producing the empty array. -/
def handleMultiBulkReply (stream : List Nat) : Except RErr RValue × List Nat :=
  match readToCRLF stream with
  | (lineOpt, s1) =>
    let cnt : Option Int := match lineOpt with
      | some line => parseIntJS line
      | none => none
    match cnt with
    | some c =>
      if c = -1 then (Except.ok (RValue.vArr [RValue.vNull]), s1)
      else
        match handleMultiBulkLoop c.toNat s1 [] with
        | (Except.ok es, s2) => (Except.ok (RValue.vArr es), s2)
        | (Except.error e, s2) => (Except.error e, s2)
    | none => (Except.ok (RValue.vArr []), s1)

/-- `handleSingleLineReply(responseStream)` (src/lib/ngv/redis.js:745-754):
the literal line `OK` becomes `true`, any other line is returned verbatim
(an exhausted stream returns the undefined line itself). -/
def handleSingleLineReply (stream : List Nat) : Except RErr RValue × List Nat :=
  match readToCRLF stream with
  | (some line, s1) =>
    if line = okStr then (Except.ok (RValue.vBool true), s1)
    else (Except.ok (RValue.vStr line), s1)
  | (none, s1) => (Except.ok RValue.vUndefined, s1)

/-- `handleIntegerReply(responseStream)` (src/lib/ngv/redis.js:756-758). -/
def handleIntegerReply (stream : List Nat) : Except RErr RValue × List Nat :=
  match readToCRLF stream with
  | (lineOpt, s1) =>
    match (match lineOpt with | some line => parseIntJS line | none => none) with
    | some v => (Except.ok (RValue.vInt v), s1)
    | none => (Except.ok RValue.vNaN, s1)

/-- `handleErrorReply(responseStream)` (src/lib/ngv/redis.js:760-767):
`line.indexOf("ERR ") != 0` distinguishes lines that do not begin with
the ERR token (message prefixed with a fixed apology text) from those
that do (message is `line.substring(4, line.length)`); either way a JS
`Error` carrying the message is thrown.  `indexOf` on an undefined line
is a TypeError. -/
def handleErrorReply (stream : List Nat) : Except RErr RValue × List Nat :=
  match readToCRLF stream with
  | (some line, s1) =>
    let errorMessage :=
      if errSpaceStr.isPrefixOf line then line.drop 4
      else badHappenedStr ++ line
    (Except.error (RErr.errThrow errorMessage), s1)
  | (none, s1) => (Except.error (RErr.errThrow undefLineMsg), s1)

/-- `replyPrefixToHandler` (src/lib/ngv/redis.js:771-777), dispatch on the
reply type byte. -/
def replyDispatch (typeByte : Nat) (stream : List Nat) : Except RErr RValue × List Nat :=
  if typeByte = 36 then handleBulkReply stream
  else if typeByte = 42 then handleMultiBulkReply stream
  else if typeByte = 43 then handleSingleLineReply stream
  else if typeByte = 58 then handleIntegerReply stream
  else handleErrorReply stream

/-- `Redis.prototype.fatal(errorMessage)` (src/lib/ngv/redis.js:541-548):
close the connection if one exists, null it, and throw. -/
def fatalSt (st : RedisState) (msg : List Nat) : Except RErr Unit × RedisState :=
  match st.conn with
  | some _ =>
    (Except.error (RErr.fatalErr msg),
     { st with conn := none, trace := st.trace ++ [Event.evClose] })
  | none => (Except.error (RErr.fatalErr msg), st)

/-- `writeCmd(self, cmd)` (src/lib/ngv/redis.js:661-669): write and flush
the command string on `self._out`; any exception is caught and turned
into `self.fatal(...)`.  A write after the connection has been nulled
(on the stale writer of a closed socket) raises on flush and takes the
same fatal path. -/
def writeCmd (st : RedisState) (cmd : List Nat) : Except RErr Unit × RedisState :=
  match st.conn with
  | some c =>
    if c.writeFails then fatalSt st (writeErrMsg ++ cmd)
    else (Except.ok (), { st with trace := st.trace ++ [Event.evWrite cmd] })
  | none => fatalSt st (writeErrMsg ++ cmd)

/-- `Redis.prototype.quit()` (src/lib/ngv/redis.js:530-538): fatal when no
connection is open, otherwise best-effort write of the inline string
`quit` followed by closing and nulling the socket. -/
def quitCall (st : RedisState) : Except RErr Unit × RedisState :=
  match st.conn with
  | none => fatalSt st connNotOpenMsg
  | some _ =>
    match writeCmd st quitStr with
    | (Except.error e, st1) => (Except.error e, st1)
    | (Except.ok _, st1) =>
      (Except.ok (),
       { st1 with conn := none, trace := st1.trace ++ [Event.evClose] })

/-- `reconnect(self)` (src/lib/ngv/redis.js:491-501): gracefully quit any
existing connection, then open a fresh socket and bind its streams.  The
behaviour of the new socket is the next entry of `world`; `new Socket`
raising (no entry left) propagates as a thrown error. -/
def reconnectCall (st : RedisState) : Except RErr Unit × RedisState :=
  match (match st.conn with
         | some _ => quitCall st
         | none => (Except.ok (), st)) with
  | (Except.error e, st1) => (Except.error e, st1)
  | (Except.ok _, st1) =>
    match st1.world with
    | [] => (Except.error (RErr.errThrow connectFailedMsg), st1)
    | c :: w =>
      (Except.ok (),
       { st1 with conn := some c, world := w, trace := st1.trace ++ [Event.evOpen] })

/-- `processResponse(self)` (src/lib/ngv/redis.js:681-704): read the first
byte of the reply (a read exception is caught and becomes fatal; end of
stream, -1, throws the idle-timeout error without closing); a byte that
is not one of the five reply type bytes is fatal (`invalid Redis type
Prefix`, connection closed); otherwise dispatch to the handler and
post-process its result under the current command name. -/
def processResponse (st : RedisState) : Except RErr RValue × RedisState :=
  match st.conn with
  | none =>
    match fatalSt st readErrMsg with
    | (Except.error e, st1) => (Except.error e, st1)
    | (Except.ok _, st1) => (Except.error (RErr.errThrow readErrMsg), st1)
  | some c =>
    match c.input with
    | [] => (Except.error (RErr.errThrow timeoutMsg), st)
    | b :: rest =>
      if b = 45 || b = 43 || b = 36 || b = 42 || b = 58 then
        match replyDispatch b rest with
        | (Except.ok v, rest') =>
          let st1 := { st with conn := some { c with input := rest' } }
          match postProcessResults v st.currentCmd with
          | Except.ok v' => (Except.ok v', st1)
          | Except.error e => (Except.error e, st1)
        | (Except.error e, rest') =>
          (Except.error e, { st with conn := some { c with input := rest' } })
      else
        match fatalSt { st with conn := some { c with input := rest } } invalidTypeMsg with
        | (Except.error e, st1) => (Except.error e, st1)
        | (Except.ok _, st1) => (Except.error (RErr.fatalErr invalidTypeMsg), st1)

/-- The function returned by `createCommandSender(commandName)`
(src/lib/ngv/redis.js:616-653), as invoked with an argument list: set
`currentCmd`, lazily connect when `this._conn` is null, check the command
table (unknown names are fatal), format the multibulk command, write it
(note: this first write sits outside the try block), then block on the
reply; any exception thrown while processing the response is caught once
and answered with reconnect, re-write of the identical command string,
and a second response read, whose outcome is final. -/
def sendCommand (name : List Nat) (args : List (List Nat)) (st0 : RedisState) :
    Except RErr RValue × RedisState :=
  let st := { st0 with currentCmd := name }
  match (match st.conn with
         | none => reconnectCall st
         | some _ => (Except.ok (), st)) with
  | (Except.error e, st1) => (Except.error e, st1)
  | (Except.ok _, st1) =>
    if name ∈ commandsList then
      let cmd := formatMultiBulkCommand name args
      match writeCmd st1 cmd with
      | (Except.error e, st2) => (Except.error e, st2)
      | (Except.ok _, st2) =>
        match processResponse st2 with
        | (Except.ok v, st3) => (Except.ok v, st3)
        | (Except.error _, st3) =>
          match reconnectCall st3 with
          | (Except.error e, st4) => (Except.error e, st4)
          | (Except.ok _, st4) =>
            match writeCmd st4 cmd with
            | (Except.error e, st5) => (Except.error e, st5)
            | (Except.ok _, st5) => processResponse st5
    else
      match fatalSt st1 (unknownCmdMsg ++ name) with
      | (Except.error e, st2) => (Except.error e, st2)
      | (Except.ok _, st2) => (Except.error (RErr.fatalErr (unknownCmdMsg ++ name)), st2)

/-- The options record accepted by `Redis.prototype.sort`
(src/lib/ngv/redis.js:831-879).  JS truthiness: an absent or empty
`byPattern` string is falsy; absent `ascending`/`lexicographically`
(undefined) are falsy, modelled as `false`. -/
structure SortOptions where
  byPattern : Option (List Nat) := none
  getPatterns : Option (List (List Nat)) := none
  ascending : Bool := false
  lexicographically : Bool := false
  limit : Option (Nat × Nat) := none

/-- Strip trailing JS whitespace: `cmd.replace(/\s+$/, '')`. -/
def stripTrailingWs (s : List Nat) : List Nat :=
  (s.reverse.dropWhile isJsWs).reverse

/-- The command string built by `Redis.prototype.sort` — an inline
space-separated text command, not a multibulk frame.  With no options
object the string is `sort <key>` with no terminator at all; with an
options object the clauses are joined in source order (by, limit, get,
desc, alpha), trailing whitespace is collapsed and a single CR LF
appended. -/
def sortCmdString (key : List Nat) (options : Option SortOptions) : List Nat :=
  let cmd := [115, 111, 114, 116, 32] ++ key  -- sort and a space
  match options with
  | none => cmd
  | some o =>
    let optBy := match o.byPattern with
      | some p => if p = [] then [] else [98, 121, 32] ++ p  -- by and a space
      | none => []
    let optGet := match o.getPatterns with
      | some pats => pats.foldl (fun acc pat => acc ++ [103, 101, 116, 32] ++ pat ++ [32]) []
      | none => []
    let optAsc := if o.ascending then [] else [100, 101, 115, 99]  -- desc
    let optAlpha := if o.lexicographically then [97, 108, 112, 104, 97] else []  -- alpha
    let optLimit := match o.limit with
      | some (a, b) => [108, 105, 109, 105, 116, 32] ++ natStr a ++ [32] ++ natStr b
      | none => []
    let cmd2 := cmd ++ [32] ++ optBy ++ [32] ++ optLimit ++ [32] ++ optGet ++
      [32] ++ optAsc ++ [32] ++ optAlpha ++ [32] ++ crlfB
    stripTrailingWs cmd2 ++ crlfB

/-- `Redis.prototype.sort(key, options)` (src/lib/ngv/redis.js:831-879):
lazily reconnect, build the inline sort command, set it as `currentCmd`,
write it, and read the reply with the same one-shot catch-and-retry as
the generic sender. -/
def sortSend (key : List Nat) (options : Option SortOptions) (st0 : RedisState) :
    Except RErr RValue × RedisState :=
  match (match st0.conn with
         | none => reconnectCall st0
         | some _ => (Except.ok (), st0)) with
  | (Except.error e, st1) => (Except.error e, st1)
  | (Except.ok _, st1) =>
    let cmd := sortCmdString key options
    let st2 := { st1 with currentCmd := cmd }
    match writeCmd st2 cmd with
    | (Except.error e, st3) => (Except.error e, st3)
    | (Except.ok _, st3) =>
      match processResponse st3 with
      | (Except.ok v, st4) => (Except.ok v, st4)
      | (Except.error _, st4) =>
        match reconnectCall st4 with
        | (Except.error e, st5) => (Except.error e, st5)
        | (Except.ok _, st5) =>
          match writeCmd st5 cmd with
          | (Except.error e, st6) => (Except.error e, st6)
          | (Except.ok _, st6) => processResponse st6

/-- The five commands whose results the post-processor booleanises
(the `setnx`/`sadd`/`sismember`/`zadd`/`zrem` arm of `postProcessResults`). -/
def boolCmds : List (List Nat) := [setnxStr, saddStr, sismemberStr, zaddStr, zremStr]

/-- Values the generic reply decode can actually produce: the handlers
return null, undefined, booleans, integers, NaN, strings, or arrays whose
elements are the null/string bulk results collected by
`handleMultiBulkReply` (objects and floats exist only after
post-processing). -/
def decodedReply : RValue → Bool
  | RValue.vNull => true
  | RValue.vUndefined => true
  | RValue.vBool _ => true
  | RValue.vInt _ => true
  | RValue.vNaN => true
  | RValue.vStr _ => true
  | RValue.vArr es => es.all fun e =>
      match e with
      | RValue.vNull => true
      | RValue.vStr _ => true
      | _ => false
  | RValue.vObj _ => false
  | RValue.vFloatStr _ => false

/-! ### Helper lemmas: decimal text -/

theorem natStrGo_fuel (f1 : Nat) : ∀ f2 n, n < f1 → n < f2 → natStrGo f1 n = natStrGo f2 n := by
  induction f1 with
  | zero => intro f2 n h1 _; omega
  | succ f ih =>
    intro f2 n h1 h2
    cases f2 with
    | zero => omega
    | succ g =>
      by_cases hn : n < 10
      · simp [natStrGo, hn]
      · have hlt : n / 10 < n := Nat.div_lt_self (by omega) (by omega)
        simp only [natStrGo, if_neg hn]
        rw [ih g (n / 10) (by omega) (by omega)]

theorem natStr_digits (n : Nat) : ∀ d ∈ natStr n, 48 ≤ d ∧ d ≤ 57 := by
  induction n using Nat.strong_induction_on with
  | _ n ih =>
    by_cases hn : n < 10
    · simp [natStr, natStrGo, hn]; omega
    · have hlt : n / 10 < n := Nat.div_lt_self (by omega) (by omega)
      have hfuel : natStrGo n (n / 10) = natStr (n / 10) := by
        apply natStrGo_fuel <;> omega
      simp only [natStr, natStrGo, if_neg hn]
      intro d hd
      rw [hfuel] at hd
      rcases List.mem_append.mp hd with h | h
      · exact ih (n / 10) hlt d h
      · simp at h; omega

theorem natStr_foldl (n : Nat) :
    (natStr n).foldl (fun a d => a * 10 + (d - 48)) 0 = n := by
  induction n using Nat.strong_induction_on with
  | _ n ih =>
    by_cases hn : n < 10
    · simp [natStr, natStrGo, hn]
    · have hlt : n / 10 < n := Nat.div_lt_self (by omega) (by omega)
      have hfuel : natStrGo n (n / 10) = natStr (n / 10) := by
        apply natStrGo_fuel <;> omega
      simp only [natStr, natStrGo, if_neg hn]
      rw [hfuel, List.foldl_append, ih (n / 10) hlt]
      simp; omega

theorem natStr_ne_nil (n : Nat) : natStr n ≠ [] := by
  by_cases hn : n < 10
  · simp [natStr, natStrGo, hn]
  · simp only [natStr, natStrGo, if_neg hn]
    simp

theorem takeWhile_all {p : Nat → Bool} :
    ∀ l : List Nat, (∀ x ∈ l, p x = true) → l.takeWhile p = l := by
  intro l
  induction l with
  | nil => intro _; rfl
  | cons a t ih =>
    intro h
    have ha : p a = true := h a (by simp)
    simp [List.takeWhile_cons, ha, ih (fun x hx => h x (by simp [hx]))]

theorem parseIntJS_natStr (n : Nat) : parseIntJS (natStr n) = some (n : Int) := by
  have hds := natStr_digits n
  obtain ⟨d, t, hdt⟩ : ∃ d t, natStr n = d :: t := by
    cases h : natStr n with
    | nil => exact absurd h (natStr_ne_nil n)
    | cons d t => exact ⟨d, t, rfl⟩
  have hd : 48 ≤ d ∧ d ≤ 57 := hds d (by rw [hdt]; simp)
  have hdws : isJsWs d = false := by simp [isJsWs]; omega
  have hdrop : (natStr n).dropWhile isJsWs = natStr n := by
    rw [hdt, List.dropWhile_cons, hdws]; simp
  have htake : (natStr n).takeWhile isDigitCode = natStr n := by
    apply takeWhile_all
    intro x hx
    have := hds x hx
    simp [isDigitCode]; omega
  have hlead : parseDigitsLead (natStr n) = some n := by
    unfold parseDigitsLead
    rw [htake]
    rw [if_neg (natStr_ne_nil n)]
    rw [natStr_foldl]
  unfold parseIntJS
  rw [hdrop, hdt]
  split
  · rename_i heq
    injection heq with h1 _
    omega
  · rename_i heq
    injection heq with h1 _
    omega
  · rw [← hdt, hlead]
    simp

/-! ### Helper lemmas: UTF-8 codec -/

theorem enc1 (u : Nat) (h : u < 0x80) (t : List Nat) :
    utf8EncodeUnits (u :: t) = u :: utf8EncodeUnits t := by
  rcases t with _ | ⟨v, t⟩ <;> simp [utf8EncodeUnits, h]

theorem enc2 (u : Nat) (h1 : 0x80 ≤ u) (h2 : u < 0x800) (t : List Nat) :
    utf8EncodeUnits (u :: t) = (0xC0 + u / 64) :: (0x80 + u % 64) :: utf8EncodeUnits t := by
  have hn : ¬ u < 0x80 := by omega
  rcases t with _ | ⟨v, t⟩ <;> simp [utf8EncodeUnits, hn, h2]

theorem enc3lo (u : Nat) (h1 : 0x800 ≤ u) (h2 : u < 0xD800) (t : List Nat) :
    utf8EncodeUnits (u :: t) =
      (0xE0 + u / 4096) :: (0x80 + (u / 64) % 64) :: (0x80 + u % 64) :: utf8EncodeUnits t := by
  have hn1 : ¬ u < 0x80 := by omega
  have hn2 : ¬ u < 0x800 := by omega
  rcases t with _ | ⟨v, t⟩ <;> simp [utf8EncodeUnits, hn1, hn2, h2]

theorem enc3hi (u : Nat) (h1 : 0xE000 ≤ u) (h2 : u < 0x10000) (t : List Nat) :
    utf8EncodeUnits (u :: t) =
      (0xE0 + u / 4096) :: (0x80 + (u / 64) % 64) :: (0x80 + u % 64) :: utf8EncodeUnits t := by
  have hn1 : ¬ u < 0x80 := by omega
  have hn2 : ¬ u < 0x800 := by omega
  have hn3 : ¬ u < 0xD800 := by omega
  have hn4 : ¬ u < 0xDC00 := by omega
  have hn5 : ¬ u < 0xE000 := by omega
  rcases t with _ | ⟨v, t⟩ <;> simp [utf8EncodeUnits, hn1, hn2, hn3, hn4, hn5]

theorem encPair (u v : Nat) (h1 : 0xD800 ≤ u) (h2 : u < 0xDC00)
    (h3 : 0xDC00 ≤ v) (h4 : v < 0xE000) (t : List Nat) :
    utf8EncodeUnits (u :: v :: t) =
      (0xF0 + (0x10000 + (u - 0xD800) * 1024 + (v - 0xDC00)) / 262144) ::
      (0x80 + ((0x10000 + (u - 0xD800) * 1024 + (v - 0xDC00)) / 4096) % 64) ::
      (0x80 + ((0x10000 + (u - 0xD800) * 1024 + (v - 0xDC00)) / 64) % 64) ::
      (0x80 + (0x10000 + (u - 0xD800) * 1024 + (v - 0xDC00)) % 64) ::
        utf8EncodeUnits t := by
  have hn1 : ¬ u < 0x80 := by omega
  have hn2 : ¬ u < 0x800 := by omega
  have hn3 : ¬ u < 0xD800 := by omega
  simp [utf8EncodeUnits, hn1, hn2, hn3, h2, h3, h4]

theorem wf1 (u : Nat) (h : u < 0xD800) (t : List Nat) : wfUtf16 (u :: t) = wfUtf16 t := by
  rcases t with _ | ⟨v, t⟩ <;> simp [wfUtf16, h]

theorem wf3 (u : Nat) (h1 : 0xE000 ≤ u) (h2 : u < 0x10000) (t : List Nat) :
    wfUtf16 (u :: t) = wfUtf16 t := by
  have hn1 : ¬ u < 0xD800 := by omega
  have hn2 : ¬ u < 0xDC00 := by omega
  have hn3 : ¬ u < 0xE000 := by omega
  rcases t with _ | ⟨v, t⟩ <;> simp [wfUtf16, hn1, hn2, hn3, h2]

theorem wf_mid (u : Nat) (h1 : 0xDC00 ≤ u) (h2 : u < 0xE000) (t : List Nat) :
    wfUtf16 (u :: t) = false := by
  have hn1 : ¬ u < 0xD800 := by omega
  have hn2 : ¬ u < 0xDC00 := by omega
  rcases t with _ | ⟨v, t⟩ <;> simp [wfUtf16, hn1, hn2, h2]

theorem wf_big (u : Nat) (h : 0x10000 ≤ u) (t : List Nat) : wfUtf16 (u :: t) = false := by
  have hn1 : ¬ u < 0xD800 := by omega
  have hn2 : ¬ u < 0xDC00 := by omega
  have hn3 : ¬ u < 0xE000 := by omega
  have hn4 : ¬ u < 0x10000 := by omega
  rcases t with _ | ⟨v, t⟩ <;> simp [wfUtf16, hn1, hn2, hn3, hn4]

theorem wf_high (u : Nat) (t : List Nat) (h1 : 0xD800 ≤ u) (h2 : u < 0xDC00)
    (hwf : wfUtf16 (u :: t) = true) :
    ∃ v t2, t = v :: t2 ∧ 0xDC00 ≤ v ∧ v < 0xE000 ∧ wfUtf16 t2 = true := by
  have hn1 : ¬ u < 0xD800 := by omega
  cases t with
  | nil =>
    simp [wfUtf16, hn1] at hwf
    omega
  | cons v t2 =>
    by_cases hv : 0xDC00 ≤ v ∧ v < 0xE000
    · refine ⟨v, t2, rfl, hv.1, hv.2, ?_⟩
      simpa [wfUtf16, hn1, h2, hv] using hwf
    · simp [wfUtf16, hn1, h2, hv] at hwf

theorem dec1 (b : Nat) (h : b < 0x80) (t : List Nat) :
    utf8DecodeUnits (b :: t) = b :: utf8DecodeUnits t := by
  rcases t with _ | ⟨x, _ | ⟨y, _ | ⟨z, w⟩⟩⟩ <;> simp [utf8DecodeUnits, h]

theorem dec2 (b0 b1 : Nat) (ha : 0xC2 ≤ b0) (hb : b0 < 0xE0) (hc : isCont b1)
    (t : List Nat) :
    utf8DecodeUnits (b0 :: b1 :: t) = utf8Dec2 b0 b1 :: utf8DecodeUnits t := by
  have hn1 : ¬ b0 < 0x80 := by omega
  have hn2 : ¬ b0 < 0xC2 := by omega
  rcases t with _ | ⟨y, _ | ⟨z, w⟩⟩ <;> simp [utf8DecodeUnits, hn1, hn2, hb, hc]

theorem dec3 (b0 b1 b2 : Nat) (ha : 0xE0 ≤ b0) (hb : b0 < 0xF0)
    (hc1 : isCont b1) (hc2 : isCont b2)
    (hcp : ¬ (utf8Dec3 b0 b1 b2 < 0x800 ∨
      (0xD800 ≤ utf8Dec3 b0 b1 b2 ∧ utf8Dec3 b0 b1 b2 < 0xE000)))
    (t : List Nat) :
    utf8DecodeUnits (b0 :: b1 :: b2 :: t) = utf8Dec3 b0 b1 b2 :: utf8DecodeUnits t := by
  have hn1 : ¬ b0 < 0x80 := by omega
  have hn2 : ¬ b0 < 0xC2 := by omega
  have hn3 : ¬ b0 < 0xE0 := by omega
  rcases t with _ | ⟨z, w⟩ <;> simp [utf8DecodeUnits, hn1, hn2, hn3, hb, hc1, hc2, hcp]

theorem dec4 (b0 b1 b2 b3 : Nat) (ha : 0xF0 ≤ b0) (hb : b0 < 0xF8)
    (hc1 : isCont b1) (hc2 : isCont b2) (hc3 : isCont b3)
    (hcp : 0x10000 ≤ utf8Dec4 b0 b1 b2 b3 ∧ utf8Dec4 b0 b1 b2 b3 < 0x110000)
    (t : List Nat) :
    utf8DecodeUnits (b0 :: b1 :: b2 :: b3 :: t) =
      (0xD800 + (utf8Dec4 b0 b1 b2 b3 - 0x10000) / 1024) ::
      (0xDC00 + (utf8Dec4 b0 b1 b2 b3 - 0x10000) % 1024) :: utf8DecodeUnits t := by
  have hn1 : ¬ b0 < 0x80 := by omega
  have hn2 : ¬ b0 < 0xC2 := by omega
  have hn3 : ¬ b0 < 0xE0 := by omega
  have hn4 : ¬ b0 < 0xF0 := by omega
  simp [utf8DecodeUnits, hn1, hn2, hn3, hn4, hb, hc1, hc2, hc3, hcp]

theorem enc_ascii (l : List Nat) (h : ∀ u ∈ l, u < 0x80) : utf8EncodeUnits l = l := by
  induction l with
  | nil => rfl
  | cons u t ih =>
    rw [enc1 u (h u (by simp)) t, ih (fun x hx => h x (by simp [hx]))]

theorem enc_append_ascii (a b : List Nat) (h : ∀ u ∈ a, u < 0x80) :
    utf8EncodeUnits (a ++ b) = a ++ utf8EncodeUnits b := by
  induction a with
  | nil => simp
  | cons u t ih =>
    rw [List.cons_append, enc1 u (h u (by simp)) (t ++ b),
      ih (fun x hx => h x (by simp [hx]))]
    rfl

theorem wf_of_ascii (l : List Nat) (h : ∀ u ∈ l, u < 0x80) : wfUtf16 l = true := by
  induction l with
  | nil => rfl
  | cons u t ih =>
    rw [wf1 u (by have := h u (by simp); omega) t]
    exact ih (fun x hx => h x (by simp [hx]))

set_option maxRecDepth 4000 in
theorem utf8_encode_append_aux : ∀ n, ∀ a : List Nat, a.length ≤ n → ∀ b,
    wfUtf16 a = true →
    utf8EncodeUnits (a ++ b) = utf8EncodeUnits a ++ utf8EncodeUnits b := by
  intro n
  induction n using Nat.strong_induction_on with
  | _ n ih =>
    intro a hlen b hwf
    cases a with
    | nil => simp [utf8EncodeUnits]
    | cons u t =>
      have hlt : t.length < n := by simp at hlen; omega
      by_cases c1 : u < 0x80
      · rw [List.cons_append, enc1 u c1 (t ++ b), enc1 u c1 t]
        rw [ih t.length hlt t le_rfl b (by rwa [wf1 u (by omega) t] at hwf)]
        rfl
      · by_cases c2 : u < 0x800
        · rw [List.cons_append, enc2 u (by omega) c2 (t ++ b), enc2 u (by omega) c2 t]
          rw [ih t.length hlt t le_rfl b (by rwa [wf1 u (by omega) t] at hwf)]
          rfl
        · by_cases c3 : u < 0xD800
          · rw [List.cons_append, enc3lo u (by omega) c3 (t ++ b), enc3lo u (by omega) c3 t]
            rw [ih t.length hlt t le_rfl b (by rwa [wf1 u c3 t] at hwf)]
            rfl
          · by_cases c4 : u < 0xDC00
            · obtain ⟨v, t2, rfl, hv1, hv2, hwt2⟩ := wf_high u t (by omega) c4 hwf
              have hlt2 : t2.length < n := by simp at hlen; omega
              rw [List.cons_append, List.cons_append,
                encPair u v (by omega) c4 hv1 hv2 (t2 ++ b),
                encPair u v (by omega) c4 hv1 hv2 t2]
              rw [ih t2.length hlt2 t2 le_rfl b hwt2]
              rfl
            · by_cases c5 : u < 0xE000
              · rw [wf_mid u (by omega) c5 t] at hwf; exact absurd hwf (by simp)
              · by_cases c6 : u < 0x10000
                · rw [List.cons_append, enc3hi u (by omega) c6 (t ++ b),
                    enc3hi u (by omega) c6 t]
                  rw [ih t.length hlt t le_rfl b
                    (by rwa [wf3 u (by omega) c6 t] at hwf)]
                  rfl
                · rw [wf_big u (by omega) t] at hwf; exact absurd hwf (by simp)

theorem utf8_encode_append (a b : List Nat) (h : wfUtf16 a = true) :
    utf8EncodeUnits (a ++ b) = utf8EncodeUnits a ++ utf8EncodeUnits b :=
  utf8_encode_append_aux a.length a le_rfl b h

set_option maxRecDepth 4000 in
theorem utf8_decode_encode_aux : ∀ n, ∀ a : List Nat, a.length ≤ n →
    wfUtf16 a = true →
    utf8DecodeUnits (utf8EncodeUnits a) = a := by
  intro n
  induction n using Nat.strong_induction_on with
  | _ n ih =>
    intro a hlen h
    cases a with
    | nil => rfl
    | cons u t =>
      have hlt : t.length < n := by simp at hlen; omega
      by_cases c1 : u < 0x80
      · rw [enc1 u c1 t, dec1 u c1 (utf8EncodeUnits t)]
        rw [ih t.length hlt t le_rfl (by rwa [wf1 u (by omega) t] at h)]
      · by_cases c2 : u < 0x800
        · rw [enc2 u (by omega) c2 t]
          rw [dec2 (0xC0 + u / 64) (0x80 + u % 64) (by omega) (by omega)
            (by unfold isCont; omega) (utf8EncodeUnits t)]
          have hv : utf8Dec2 (0xC0 + u / 64) (0x80 + u % 64) = u := by
            unfold utf8Dec2; omega
          rw [hv, ih t.length hlt t le_rfl (by rwa [wf1 u (by omega) t] at h)]
        · by_cases c3 : u < 0xD800
          · rw [enc3lo u (by omega) c3 t]
            have hv : utf8Dec3 (0xE0 + u / 4096) (0x80 + (u / 64) % 64) (0x80 + u % 64) = u := by
              unfold utf8Dec3; omega
            rw [dec3 (0xE0 + u / 4096) (0x80 + (u / 64) % 64) (0x80 + u % 64)
              (by omega) (by omega) (by unfold isCont; omega) (by unfold isCont; omega)
              (by rw [hv]; omega) (utf8EncodeUnits t)]
            rw [hv, ih t.length hlt t le_rfl (by rwa [wf1 u c3 t] at h)]
          · by_cases c4 : u < 0xDC00
            · obtain ⟨v, t2, rfl, hv1, hv2, hwt2⟩ := wf_high u t (by omega) c4 h
              have hlt2 : t2.length < n := by simp at hlen; omega
              rw [encPair u v (by omega) c4 hv1 hv2 t2]
              have hv4 : utf8Dec4
                  (0xF0 + (0x10000 + (u - 0xD800) * 1024 + (v - 0xDC00)) / 262144)
                  (0x80 + ((0x10000 + (u - 0xD800) * 1024 + (v - 0xDC00)) / 4096) % 64)
                  (0x80 + ((0x10000 + (u - 0xD800) * 1024 + (v - 0xDC00)) / 64) % 64)
                  (0x80 + (0x10000 + (u - 0xD800) * 1024 + (v - 0xDC00)) % 64) =
                  0x10000 + (u - 0xD800) * 1024 + (v - 0xDC00) := by
                unfold utf8Dec4; omega
              rw [dec4 _ _ _ _ (by omega) (by omega)
                (by unfold isCont; omega) (by unfold isCont; omega) (by unfold isCont; omega)
                (by rw [hv4]; omega) (utf8EncodeUnits t2)]
              rw [hv4]
              have hu : 0xD800 + (0x10000 + (u - 0xD800) * 1024 + (v - 0xDC00) - 0x10000) / 1024 = u := by
                omega
              have hvv : 0xDC00 + (0x10000 + (u - 0xD800) * 1024 + (v - 0xDC00) - 0x10000) % 1024 = v := by
                omega
              rw [hu, hvv, ih t2.length hlt2 t2 le_rfl hwt2]
            · by_cases c5 : u < 0xE000
              · rw [wf_mid u (by omega) c5 t] at h; exact absurd h (by simp)
              · by_cases c6 : u < 0x10000
                · rw [enc3hi u (by omega) c6 t]
                  have hv : utf8Dec3 (0xE0 + u / 4096) (0x80 + (u / 64) % 64) (0x80 + u % 64) = u := by
                    unfold utf8Dec3; omega
                  rw [dec3 (0xE0 + u / 4096) (0x80 + (u / 64) % 64) (0x80 + u % 64)
                    (by omega) (by omega) (by unfold isCont; omega) (by unfold isCont; omega)
                    (by rw [hv]; omega) (utf8EncodeUnits t)]
                  rw [hv, ih t.length hlt t le_rfl (by rwa [wf3 u (by omega) c6 t] at h)]
                · rw [wf_big u (by omega) t] at h; exact absurd h (by simp)

theorem utf8_decode_encode (a : List Nat) (h : wfUtf16 a = true) :
    utf8DecodeUnits (utf8EncodeUnits a) = a :=
  utf8_decode_encode_aux a.length a le_rfl h

/-! ### Helper lemmas: the CRLF line reader -/

theorem containsCRLF_mid (ys zs : List Nat) : containsCRLF (ys ++ 13 :: 10 :: zs) = true := by
  induction ys with
  | nil => simp [containsCRLF]
  | cons y t ih =>
    cases t with
    | nil => simp [containsCRLF]
    | cons y2 t2 =>
      rw [List.cons_append]
      rw [show (y2 :: t2) ++ 13 :: 10 :: zs = y2 :: (t2 ++ 13 :: 10 :: zs) from rfl] at ih ⊢
      simp [containsCRLF, ih]

theorem lastTwo_concat2 (ys : List Nat) (b a : Nat) : lastTwo ((ys ++ [b]) ++ [a]) = [b, a] := by
  unfold lastTwo
  rw [List.append_assoc]
  simp only [List.length_append, List.length_cons, List.length_nil]
  rw [show ys.length + (1 + 1) - 2 = ys.length by omega]
  rw [List.drop_left' rfl]
  rfl

theorem dropLastTwo_app2 (xs : List Nat) (a b : Nat) : dropLastTwo (xs ++ [a, b]) = xs := by
  unfold dropLastTwo
  simp only [List.length_append, List.length_cons, List.length_nil]
  rw [show xs.length + (0 + 1 + 1) - 2 = xs.length by omega]
  exact List.take_left xs [a, b]

theorem readToCRLFAux_cons (c : Nat) (s buf : List Nat) :
    readToCRLFAux (c :: s) buf =
      if 2 < (buf ++ [c]).length then
        if lastTwo (buf ++ [c]) = [13, 10] then (some (dropLastTwo (buf ++ [c])), s)
        else readToCRLFAux s (buf ++ [c])
      else readToCRLFAux s (buf ++ [c]) := rfl

theorem readToCRLFAux_term2 (buf0 : List Nat) (h : buf0 ≠ []) (rest : List Nat) :
    readToCRLFAux (10 :: rest) (buf0 ++ [13]) = (some buf0, rest) := by
  rw [readToCRLFAux_cons]
  have hpos : 0 < buf0.length := List.length_pos.mpr h
  have hl2 : 2 < ((buf0 ++ [13]) ++ [10]).length := by simp; omega
  have hl3 : lastTwo ((buf0 ++ [13]) ++ [10]) = [13, 10] := lastTwo_concat2 buf0 13 10
  rw [if_pos hl2, if_pos hl3]
  have h3 : dropLastTwo ((buf0 ++ [13]) ++ [10]) = buf0 := by
    have heq : (buf0 ++ [13]) ++ [10] = buf0 ++ [13, 10] := by simp
    rw [heq]; exact dropLastTwo_app2 buf0 13 10
  rw [h3]

theorem readToCRLFAux_term (buf : List Nat) (hne : buf ≠ []) (rest : List Nat) :
    readToCRLFAux (13 :: 10 :: rest) buf = (some buf, rest) := by
  rcases (List.eq_nil_or_concat buf) with rfl | ⟨ys, b, hbuf⟩
  · exact absurd rfl hne
  · rw [List.concat_eq_append] at hbuf
    subst hbuf
    rw [readToCRLFAux_cons]
    have hne2 : ¬ lastTwo ((ys ++ [b]) ++ [13]) = [13, 10] := by
      rw [lastTwo_concat2]; simp
    by_cases hl : 2 < ((ys ++ [b]) ++ [13]).length
    · rw [if_pos hl, if_neg hne2]
      exact readToCRLFAux_term2 (ys ++ [b]) (by simp) rest
    · rw [if_neg hl]
      exact readToCRLFAux_term2 (ys ++ [b]) (by simp) rest

theorem readToCRLFAux_app : ∀ (line : List Nat), ∀ buf rest,
    containsCRLF (buf ++ line) = false → buf ++ line ≠ [] →
    readToCRLFAux (line ++ 13 :: 10 :: rest) buf = (some (buf ++ line), rest) := by
  intro line
  induction line with
  | nil =>
    intro buf rest hc hne
    simp only [List.append_nil] at hne ⊢
    exact readToCRLFAux_term buf hne rest
  | cons x line' ih =>
    intro buf rest hc hne
    rw [List.cons_append, readToCRLFAux_cons]
    have hnotcrlf : ¬ lastTwo (buf ++ [x]) = [13, 10] := by
      rcases (List.eq_nil_or_concat buf) with rfl | ⟨ys, b, hbuf⟩
      · simp [lastTwo]
      · rw [List.concat_eq_append] at hbuf
        subst hbuf
        rw [lastTwo_concat2]
        intro heq
        simp at heq
        obtain ⟨rfl, rfl⟩ := heq
        rw [show (ys ++ [13]) ++ 10 :: line' = ys ++ 13 :: 10 :: line' by simp] at hc
        rw [containsCRLF_mid ys line'] at hc
        exact absurd hc (by simp)
    have hrec := ih (buf ++ [x]) rest
      (by rw [show (buf ++ [x]) ++ line' = buf ++ x :: line' by simp]; exact hc)
      (by simp)
    rw [show (buf ++ [x]) ++ line' = buf ++ x :: line' by simp] at hrec
    by_cases hl : 2 < (buf ++ [x]).length
    · rw [if_pos hl, if_neg hnotcrlf]
      exact hrec
    · rw [if_neg hl]
      exact hrec

theorem readToCRLFAux_none : ∀ (s : List Nat), ∀ buf,
    containsCRLF (buf ++ s) = false → readToCRLFAux s buf = (none, []) := by
  intro s
  induction s with
  | nil => intro buf _; rfl
  | cons c rest ih =>
    intro buf hc
    rw [readToCRLFAux_cons]
    have hnotcrlf : ¬ lastTwo (buf ++ [c]) = [13, 10] := by
      rcases (List.eq_nil_or_concat buf) with rfl | ⟨ys, b, hbuf⟩
      · simp [lastTwo]
      · rw [List.concat_eq_append] at hbuf
        subst hbuf
        rw [lastTwo_concat2]
        intro heq
        simp at heq
        obtain ⟨rfl, rfl⟩ := heq
        rw [show (ys ++ [13]) ++ 10 :: rest = ys ++ 13 :: 10 :: rest by simp] at hc
        rw [containsCRLF_mid ys rest] at hc
        exact absurd hc (by simp)
    have hrec := ih (buf ++ [c])
      (by rw [show (buf ++ [c]) ++ rest = buf ++ c :: rest by simp]; exact hc)
    by_cases hl : 2 < (buf ++ [c]).length
    · rw [if_pos hl, if_neg hnotcrlf]
      exact hrec
    · rw [if_neg hl]
      exact hrec

theorem readToCRLF_app (line rest : List Nat) (h1 : containsCRLF line = false)
    (h2 : line ≠ []) : readToCRLF (line ++ 13 :: 10 :: rest) = (some line, rest) := by
  unfold readToCRLF
  have := readToCRLFAux_app line [] rest (by simpa using h1) (by simpa using h2)
  simpa using this

theorem readToCRLF_exhaust (s : List Nat) (h : containsCRLF s = false) :
    readToCRLF s = (none, []) := by
  unfold readToCRLF
  exact readToCRLFAux_none s [] (by simpa using h)

/-! ### Helper lemmas: reply handlers and the encoder -/

theorem containsCRLF_of_no13 : ∀ l : List Nat, (∀ x ∈ l, x ≠ 13) → containsCRLF l = false := by
  intro l
  induction l with
  | nil => intro _; rfl
  | cons a t ih =>
    intro h
    cases t with
    | nil => rfl
    | cons b t2 =>
      have ha : a ≠ 13 := h a (by simp)
      simp [containsCRLF, ha]
      exact ih (fun x hx => h x (by simp [hx]))

theorem natStr_ascii (n : Nat) : ∀ u ∈ natStr n, u < 0x80 := by
  intro u hu
  have := natStr_digits n u hu
  omega

theorem natStr_noCRLF (n : Nat) : containsCRLF (natStr n) = false := by
  apply containsCRLF_of_no13
  intro x hx
  have := natStr_digits n x hx
  omega

theorem handleErrorReply_app (line rest : List Nat) (h1 : containsCRLF line = false)
    (h2 : line ≠ []) :
    handleErrorReply (line ++ 13 :: 10 :: rest) =
      (Except.error (RErr.errThrow
        (if errSpaceStr.isPrefixOf line then line.drop 4 else badHappenedStr ++ line)), rest) := by
  unfold handleErrorReply
  rw [readToCRLF_app line rest h1 h2]

theorem ascii_cons {a : Nat} {l : List Nat} (ha : a < 0x80) (hl : ∀ u ∈ l, u < 0x80) :
    ∀ u ∈ a :: l, u < 0x80 := by
  intro u hu
  rcases List.mem_cons.mp hu with rfl | h
  · exact ha
  · exact hl u h

theorem ascii_append {a b : List Nat} (ha : ∀ u ∈ a, u < 0x80) (hb : ∀ u ∈ b, u < 0x80) :
    ∀ u ∈ a ++ b, u < 0x80 := by
  intro u hu
  rcases List.mem_append.mp hu with h | h
  · exact ha u h
  · exact hb u h

theorem ascii_crlfB : ∀ u ∈ crlfB, u < 0x80 := by decide

theorem handleBulkReply_echo (payload : List Nat) :
    handleBulkReply (natStr payload.length ++ (13 :: 10 :: (payload ++ [13, 10]))) =
      (Except.ok (RValue.vStr (utf8DecodeUnits payload)), []) := by
  unfold handleBulkReply
  rw [readToCRLF_app (natStr payload.length) (payload ++ [13, 10])
    (natStr_noCRLF payload.length) (natStr_ne_nil payload.length)]
  simp only [parseIntJS_natStr]
  have hne1 : ¬ ((payload.length : Int) = -1) := by omega
  have hne2 : ¬ ((payload.length : Int) < 0) := by omega
  rw [if_neg hne1, if_neg hne2]
  simp only [Int.toNat_natCast]
  have htake : (payload ++ [13, 10]).take payload.length = payload := List.take_left payload _
  have hdrop : (payload ++ [13, 10]).drop payload.length = [13, 10] := List.drop_left payload _
  have hlen : payload.length - (payload ++ [13, 10]).length = 0 := by simp
  rw [htake, hdrop, hlen]
  simp

theorem enc_flatMap (args : List (List Nat)) (h : ∀ a ∈ args, wfUtf16 a = true) :
    utf8EncodeUnits (args.flatMap fun a =>
        36 :: natStr (utf8EncodeUnits a).length ++ crlfB ++ a ++ crlfB) =
      args.flatMap fun a =>
        36 :: natStr (utf8EncodeUnits a).length ++ crlfB ++ utf8EncodeUnits a ++ crlfB := by
  induction args with
  | nil => rfl
  | cons a t ih =>
    rw [List.flatMap_cons, List.flatMap_cons]
    have hhead : ∀ u ∈ ((36 :: natStr (utf8EncodeUnits a).length) ++ crlfB), u < 0x80 :=
      ascii_append (ascii_cons (by omega) (natStr_ascii _)) ascii_crlfB
    have hstep : (36 :: natStr (utf8EncodeUnits a).length ++ crlfB ++ a ++ crlfB) ++
        (t.flatMap fun a => 36 :: natStr (utf8EncodeUnits a).length ++ crlfB ++ a ++ crlfB) =
        ((36 :: natStr (utf8EncodeUnits a).length) ++ crlfB) ++
        (a ++ (crlfB ++ (t.flatMap fun a =>
          36 :: natStr (utf8EncodeUnits a).length ++ crlfB ++ a ++ crlfB))) := by
      simp
    rw [hstep, enc_append_ascii _ _ hhead,
      utf8_encode_append a _ (h a (by simp)),
      enc_append_ascii crlfB _ ascii_crlfB,
      ih (fun x hx => h x (by simp [hx]))]
    simp

set_option maxRecDepth 8000 in
theorem commands_ascii : ∀ name ∈ commandsList, ∀ u ∈ name, u < 0x80 := by decide

theorem encodeMultiBulk_wire (name : List Nat) (args : List (List Nat))
    (hname : ∀ u ∈ name, u < 0x80) (hargs : ∀ a ∈ args, wfUtf16 a = true) :
    utf8EncodeUnits (formatMultiBulkCommand name args) = respMultiBulkFrame (name :: args) := by
  unfold formatMultiBulkCommand respMultiBulkFrame
  have hhead : ∀ u ∈ ((42 :: natStr (args.length + 1)) ++ (crlfB ++
      ((36 :: natStr name.length) ++ (crlfB ++ (name ++ crlfB))))), u < 0x80 :=
    ascii_append (ascii_cons (by omega) (natStr_ascii _))
      (ascii_append ascii_crlfB
        (ascii_append (ascii_cons (by omega) (natStr_ascii _))
          (ascii_append ascii_crlfB (ascii_append hname ascii_crlfB))))
  have hstep : (42 :: natStr (args.length + 1) ++ crlfB ++
      (36 :: natStr name.length ++ crlfB ++ name ++ crlfB) ++
      (args.flatMap fun a => 36 :: natStr (utf8EncodeUnits a).length ++ crlfB ++ a ++ crlfB)) =
      ((42 :: natStr (args.length + 1)) ++ (crlfB ++
      ((36 :: natStr name.length) ++ (crlfB ++ (name ++ crlfB))))) ++
      (args.flatMap fun a => 36 :: natStr (utf8EncodeUnits a).length ++ crlfB ++ a ++ crlfB) := by
    simp
  rw [hstep, enc_append_ascii _ _ hhead, enc_flatMap args hargs]
  rw [List.flatMap_cons, enc_ascii name hname]
  simp [List.length_cons]

/-! ### Dispatcher-level helper lemmas -/

theorem postProcess_bool (cmd : List Nat) (hc : cmd ∈ boolCmds) (r : RValue) :
    postProcessResults r cmd =
      Except.ok (if jsStrictEqZero r then RValue.vBool false else RValue.vBool true) := by
  fin_cases hc <;> rfl

/-! ### The claims -/

/-- C1 (corrected): on a known command, a transport-level failure while
decoding the reply (here: the server has closed the stream, so the first
read returns -1 and the idle-timeout error is thrown) triggers exactly one
recovery cycle — reconnect (a best-effort `quit` on the stale socket,
close, fresh socket) and one re-send of the identical encoded command —
after which the second decode's outcome, success or failure, is final
(the `world` of the final state is empty: no third connection can be
touched).  However, contrary to the claim's last sentence, a transport
failure on the first write is NOT retried: the first `writeCmd` sits
outside the try block, so the fatal error propagates at once, the command
is never written (no write event), and the remaining world is untouched. -/
theorem c1_single_retry_decode_only (name : List Nat) (args : List (List Nat))
    (inp2 inp1 : List Nat) (w : List ConnState) (h : name ∈ commandsList) :
    (sendCommand name args ⟨some ⟨false, []⟩, [⟨false, inp2⟩], [], []⟩ =
      processResponse ⟨some ⟨false, inp2⟩, [],
        [Event.evWrite (formatMultiBulkCommand name args), Event.evWrite quitStr,
         Event.evClose, Event.evOpen,
         Event.evWrite (formatMultiBulkCommand name args)], name⟩) ∧
    (sendCommand name args ⟨some ⟨true, inp1⟩, w, [], []⟩ =
      (Except.error (RErr.fatalErr (writeErrMsg ++ formatMultiBulkCommand name args)),
       ⟨none, w, [Event.evClose], name⟩)) := by
  constructor
  · simp [sendCommand, writeCmd, quitCall, reconnectCall, processResponse, fatalSt, h]
  · simp [sendCommand, writeCmd, fatalSt, h]

/-- Witness for C1 at `get("foo")` with a healthy second connection
serving the bulk reply `$3 CRLF bar CRLF`. -/
theorem c1_single_retry_decode_only_witness :
    ([103, 101, 116] ∈ commandsList) ∧
    ((sendCommand [103, 101, 116] [[102, 111, 111]]
        ⟨some ⟨false, []⟩, [⟨false, [36, 51, 13, 10, 98, 97, 114, 13, 10]⟩], [], []⟩ =
      processResponse ⟨some ⟨false, [36, 51, 13, 10, 98, 97, 114, 13, 10]⟩, [],
        [Event.evWrite (formatMultiBulkCommand [103, 101, 116] [[102, 111, 111]]),
         Event.evWrite quitStr, Event.evClose, Event.evOpen,
         Event.evWrite (formatMultiBulkCommand [103, 101, 116] [[102, 111, 111]])],
        [103, 101, 116]⟩) ∧
    (sendCommand [103, 101, 116] [[102, 111, 111]] ⟨some ⟨true, []⟩, [], [], []⟩ =
      (Except.error (RErr.fatalErr
        (writeErrMsg ++ formatMultiBulkCommand [103, 101, 116] [[102, 111, 111]])),
       ⟨none, [], [Event.evClose], [103, 101, 116]⟩))) :=
  ⟨by decide,
   c1_single_retry_decode_only [103, 101, 116] [[102, 111, 111]]
     [36, 51, 13, 10, 98, 97, 114, 13, 10] [] [] (by decide)⟩

/-- Counterexample for C1 as stated: with no connection open, a world
whose first socket fails every write and whose second socket would serve
a healthy `+OK` reply, `get` fails fatally at the first write — the
claimed single retry (which would reconnect, re-send, and succeed) never
happens: the trace has no write event at all and the healthy second
connection is still unused in the final world. -/
theorem c1_first_write_not_retried :
    sendCommand [103, 101, 116] [[102, 111, 111]]
      ⟨none, [⟨true, []⟩, ⟨false, [43, 79, 75, 13, 10]⟩], [], []⟩ =
      (Except.error (RErr.fatalErr
        (writeErrMsg ++ formatMultiBulkCommand [103, 101, 116] [[102, 111, 111]])),
       ⟨none, [⟨false, [43, 79, 75, 13, 10]⟩], [Event.evOpen, Event.evClose],
        [103, 101, 116]⟩) := rfl

/-- C2 (corrected): a reply whose first byte is none of the five type
bytes is indeed fatal inside `processResponse` — the connection is closed
and an error thrown — but the sender's catch-all retry then reconnects
and re-sends the identical command once, so the protocol error is NOT
surfaced immediately and the command IS re-sent; only the second
attempt's outcome reaches the caller. -/
theorem c2_invalid_typebyte_one_retry (name : List Nat) (args : List (List Nat))
    (b : Nat) (rest inp2 : List Nat) (h : name ∈ commandsList)
    (hb1 : b ≠ 45) (hb2 : b ≠ 43) (hb3 : b ≠ 36) (hb4 : b ≠ 42) (hb5 : b ≠ 58) :
    sendCommand name args ⟨some ⟨false, b :: rest⟩, [⟨false, inp2⟩], [], []⟩ =
      processResponse ⟨some ⟨false, inp2⟩, [],
        [Event.evWrite (formatMultiBulkCommand name args), Event.evClose, Event.evOpen,
         Event.evWrite (formatMultiBulkCommand name args)], name⟩ := by
  simp [sendCommand, writeCmd, quitCall, reconnectCall, processResponse, fatalSt, h,
    hb1, hb2, hb3, hb4, hb5]

/-- Witness for C2 at `get("a")` with invalid type byte `X` (88) and a
second connection serving `+OK`. -/
theorem c2_invalid_typebyte_one_retry_witness :
    ([103, 101, 116] ∈ commandsList) ∧
    (sendCommand [103, 101, 116] [[97]]
        ⟨some ⟨false, 88 :: []⟩, [⟨false, [43, 79, 75, 13, 10]⟩], [], []⟩ =
      processResponse ⟨some ⟨false, [43, 79, 75, 13, 10]⟩, [],
        [Event.evWrite (formatMultiBulkCommand [103, 101, 116] [[97]]),
         Event.evClose, Event.evOpen,
         Event.evWrite (formatMultiBulkCommand [103, 101, 116] [[97]])],
        [103, 101, 116]⟩) :=
  ⟨by decide,
   c2_invalid_typebyte_one_retry [103, 101, 116] [[97]] 88 [] [43, 79, 75, 13, 10]
     (by decide) (by decide) (by decide) (by decide) (by decide) (by decide)⟩

/-- Counterexample for C2 as stated: after the malformed first byte `X`
the command is re-sent on a fresh connection (two write events of the
same command string) and the caller receives the retried reply `true`
instead of the claimed immediately-surfaced protocol failure. -/
theorem c2_protocol_error_resent :
    sendCommand [103, 101, 116] [[97]]
      ⟨some ⟨false, [88]⟩, [⟨false, [43, 79, 75, 13, 10]⟩], [], []⟩ =
      (Except.ok (RValue.vBool true),
       ⟨some ⟨false, []⟩, [],
        [Event.evWrite (formatMultiBulkCommand [103, 101, 116] [[97]]),
         Event.evClose, Event.evOpen,
         Event.evWrite (formatMultiBulkCommand [103, 101, 116] [[97]])],
        [103, 101, 116]⟩) := rfl

/-- C3 (corrected): a server error reply (`-` type byte) makes
`handleErrorReply` throw the command error, which the sender's catch-all
retry treats like any other exception: the client quits the (still
healthy) connection, reconnects, and re-sends the identical command once.
If the second attempt again yields an error reply, that error is finally
propagated to the caller, and the (reconnected) connection remains open
with its reply fully consumed. -/
theorem c3_error_reply_one_retry (name : List Nat) (args : List (List Nat))
    (line1 line2 : List Nat) (h : name ∈ commandsList)
    (hc1 : containsCRLF line1 = false) (hn1 : line1 ≠ [])
    (hc2 : containsCRLF line2 = false) (hn2 : line2 ≠ []) :
    sendCommand name args
      ⟨some ⟨false, 45 :: (line1 ++ 13 :: 10 :: [])⟩,
       [⟨false, 45 :: (line2 ++ 13 :: 10 :: [])⟩], [], []⟩ =
      (Except.error (RErr.errThrow
        (if errSpaceStr.isPrefixOf line2 then line2.drop 4 else badHappenedStr ++ line2)),
       ⟨some ⟨false, []⟩, [],
        [Event.evWrite (formatMultiBulkCommand name args), Event.evWrite quitStr,
         Event.evClose, Event.evOpen,
         Event.evWrite (formatMultiBulkCommand name args)], name⟩) := by
  have e1 := handleErrorReply_app line1 [] hc1 hn1
  have e2 := handleErrorReply_app line2 [] hc2 hn2
  simp [sendCommand, writeCmd, quitCall, reconnectCall, processResponse, replyDispatch,
    fatalSt, h, e1, e2]

/-- Witness for C3 at `get("a")` with the error line `ERR bad` on both
attempts; the surfaced message is `bad`. -/
theorem c3_error_reply_one_retry_witness :
    ([103, 101, 116] ∈ commandsList) ∧
    (sendCommand [103, 101, 116] [[97]]
      ⟨some ⟨false, 45 :: ([69, 82, 82, 32, 98, 97, 100] ++ 13 :: 10 :: [])⟩,
       [⟨false, 45 :: ([69, 82, 82, 32, 98, 97, 100] ++ 13 :: 10 :: [])⟩], [], []⟩ =
      (Except.error (RErr.errThrow
        (if errSpaceStr.isPrefixOf [69, 82, 82, 32, 98, 97, 100]
         then [69, 82, 82, 32, 98, 97, 100].drop 4
         else badHappenedStr ++ [69, 82, 82, 32, 98, 97, 100])),
       ⟨some ⟨false, []⟩, [],
        [Event.evWrite (formatMultiBulkCommand [103, 101, 116] [[97]]),
         Event.evWrite quitStr, Event.evClose, Event.evOpen,
         Event.evWrite (formatMultiBulkCommand [103, 101, 116] [[97]])],
        [103, 101, 116]⟩)) :=
  ⟨by decide,
   c3_error_reply_one_retry [103, 101, 116] [[97]]
     [69, 82, 82, 32, 98, 97, 100] [69, 82, 82, 32, 98, 97, 100]
     (by decide) (by decide) (by decide) (by decide) (by decide)⟩

/-- Counterexample for C3 as stated: a first-attempt error reply
`-ERR bad` does NOT reach the caller — the command is silently re-sent on
a fresh connection and the caller receives the retried `+OK` answer as
`true`; the trace shows the command written twice. -/
theorem c3_error_reply_resent :
    sendCommand [103, 101, 116] [[97]]
      ⟨some ⟨false, [45, 69, 82, 82, 32, 98, 97, 100, 13, 10]⟩,
       [⟨false, [43, 79, 75, 13, 10]⟩], [], []⟩ =
      (Except.ok (RValue.vBool true),
       ⟨some ⟨false, []⟩, [],
        [Event.evWrite (formatMultiBulkCommand [103, 101, 116] [[97]]),
         Event.evWrite quitStr, Event.evClose, Event.evOpen,
         Event.evWrite (formatMultiBulkCommand [103, 101, 116] [[97]])],
        [103, 101, 116]⟩) := rfl

/-- C4 (corrected): every command dispatched through the generic sender's
table is framed as RESP multibulk whose wire bytes match the spec framing
exactly — `*`(argCount+1) CRLF, then for the name and each argument
`$`(UTF-8 byte length) CRLF (UTF-8 bytes) CRLF; for the ASCII table names
the `commandName.length` the source declares coincides with the byte
length.  But multibulk is NOT the only framing emitted: the special-cased
`quit` writes the bare inline text `quit` and `sort` builds an inline
space-separated command, neither of which starts with the `*` every
multibulk frame starts with. -/
theorem c4_multibulk_table_commands (name : List Nat) (args : List (List Nat))
    (h : name ∈ commandsList) (hargs : ∀ a ∈ args, wfUtf16 a = true) :
    (utf8EncodeUnits (formatMultiBulkCommand name args) = respMultiBulkFrame (name :: args)) ∧
    ((quitCall ⟨some ⟨false, []⟩, [], [], []⟩).2.trace =
      [Event.evWrite quitStr, Event.evClose]) ∧
    (quitStr.head? ≠ some 42) ∧
    ((sortCmdString [107] none).head? ≠ some 42) := by
  refine ⟨encodeMultiBulk_wire name args (commands_ascii name h) hargs, rfl, ?_, ?_⟩
  · decide
  · decide

/-- Witness for C4 at `get` with the two-code-unit argument `x` followed
by the euro sign (U+20AC), whose UTF-8 byte length 4 differs from its
character count 2. -/
theorem c4_multibulk_table_commands_witness :
    ([103, 101, 116] ∈ commandsList) ∧
    ((utf8EncodeUnits (formatMultiBulkCommand [103, 101, 116] [[120, 8364]]) =
      respMultiBulkFrame ([103, 101, 116] :: [[120, 8364]])) ∧
    ((quitCall ⟨some ⟨false, []⟩, [], [], []⟩).2.trace =
      [Event.evWrite quitStr, Event.evClose]) ∧
    (quitStr.head? ≠ some 42) ∧
    ((sortCmdString [107] none).head? ≠ some 42)) :=
  ⟨by decide,
   c4_multibulk_table_commands [103, 101, 116] [[120, 8364]] (by decide) (by decide)⟩

/-- Counterexample for C4 as stated (multibulk as the only framing,
including for sort and quit): `quit` writes the bare four bytes `quit`
and `sort mykey` without options is the eleven-byte inline text
`sort mykey` (here with key `k`), neither starting with `*` (42), while
every multibulk frame does. -/
theorem c4_sort_quit_inline :
    ((quitCall ⟨some ⟨false, []⟩, [], [], []⟩).2.trace =
      [Event.evWrite [113, 117, 105, 116], Event.evClose]) ∧
    ([113, 117, 105, 116].head? ≠ some 42) ∧
    (sortCmdString [107] none = [115, 111, 114, 116, 32, 107]) ∧
    ((sortCmdString [107] none).head? ≠ some 42) ∧
    ((sortCmdString [107]
        (some { lexicographically := true, limit := some (0, 2) })).head? ≠ some 42) ∧
    ((respMultiBulkFrame [[113, 117, 105, 116]]).head? = some 42) := by
  refine ⟨rfl, by decide, rfl, by decide, by decide, rfl⟩

/-- C5 (confirmed): the encoder frames an argument as
`$`(UTF-8 byte length) CRLF bytes CRLF (first conjunct: the whole encoded
command equals the spec frame built from the UTF-8 bytes of each
element), and decoding a bulk reply that echoes exactly those bytes under
that declared length yields the original argument code-unit for
code-unit — including multi-byte text, since `handleBulkReply` counts raw
bytes and UTF-8-decodes the payload. -/
theorem c5_bulk_echo_roundtrip (name arg : List Nat)
    (h : name ∈ commandsList) (hw : wfUtf16 arg = true) :
    (utf8EncodeUnits (formatMultiBulkCommand name [arg]) =
      respMultiBulkFrame [name, arg]) ∧
    (handleBulkReply (natStr (utf8EncodeUnits arg).length ++
        (13 :: 10 :: (utf8EncodeUnits arg ++ [13, 10]))) =
      (Except.ok (RValue.vStr arg), [])) := by
  constructor
  · exact encodeMultiBulk_wire name [arg] (commands_ascii name h) (by simpa using hw)
  · have he := handleBulkReply_echo (utf8EncodeUnits arg)
    rw [utf8_decode_encode arg hw] at he
    exact he

/-- Witness for C5: echoing `x` plus the euro sign (code units
`[120, 8364]`, UTF-8 bytes `[120, 226, 130, 172]`) through a bulk reply
returns the original string. -/
theorem c5_bulk_echo_roundtrip_witness :
    ([103, 101, 116] ∈ commandsList) ∧ (wfUtf16 [120, 8364] = true) ∧
    ((utf8EncodeUnits (formatMultiBulkCommand [103, 101, 116] [[120, 8364]]) =
      respMultiBulkFrame [[103, 101, 116], [120, 8364]]) ∧
    (handleBulkReply (natStr (utf8EncodeUnits [120, 8364]).length ++
        (13 :: 10 :: (utf8EncodeUnits [120, 8364] ++ [13, 10]))) =
      (Except.ok (RValue.vStr [120, 8364]), []))) :=
  ⟨by decide, by decide,
   c5_bulk_echo_roundtrip [103, 101, 116] [120, 8364] (by decide) (by decide)⟩

/-- C6 (confirmed): a multibulk reply with declared count -1 decodes to
the client's nil-array value `[ null ]` (a one-element array holding
null), which is distinct from the empty array `[]` produced by a declared
count of 0. -/
theorem c6_nil_multibulk_distinct_empty :
    handleMultiBulkReply [45, 49, 13, 10] = (Except.ok (RValue.vArr [RValue.vNull]), []) ∧
    handleMultiBulkReply [48, 13, 10] = (Except.ok (RValue.vArr []), []) ∧
    RValue.vArr [RValue.vNull] ≠ RValue.vArr [] :=
  ⟨rfl, rfl, by simp⟩

/-- C7 (corrected): invoking the sender body for a name outside the
command table raises the fatal `unknown command` error before any command
bytes are written (no write event is added) — but not before connection
I/O: when no connection is open the lazy connect runs FIRST, so a socket
is opened (and then closed again by the fatal handler) before the name is
checked. -/
theorem c7_unknown_command_error (name : List Nat) (args : List (List Nat))
    (c : ConnState) (w : List ConnState) (tr : List Event) (cc : List Nat)
    (h : name ∉ commandsList) :
    sendCommand name args ⟨none, c :: w, tr, cc⟩ =
      (Except.error (RErr.fatalErr (unknownCmdMsg ++ name)),
       ⟨none, w, tr ++ [Event.evOpen, Event.evClose], name⟩) := by
  simp [sendCommand, reconnectCall, quitCall, fatalSt, writeCmd, h]

set_option maxRecDepth 8000 in
/-- Witness for C7 at the unsupported command `hset` (this client predates
hash support) with no connection open. -/
theorem c7_unknown_command_error_witness :
    ([104, 115, 101, 116] ∉ commandsList) ∧
    (sendCommand [104, 115, 101, 116] [] ⟨none, ⟨false, []⟩ :: [], [], []⟩ =
      (Except.error (RErr.fatalErr (unknownCmdMsg ++ [104, 115, 101, 116])),
       ⟨none, [], [] ++ [Event.evOpen, Event.evClose], [104, 115, 101, 116]⟩)) :=
  ⟨by decide,
   c7_unknown_command_error [104, 115, 101, 116] [] ⟨false, []⟩ [] [] [] (by decide)⟩

set_option maxRecDepth 8000 in
/-- Counterexample for C7 as stated (no socket is opened when none is
open): dispatching the unknown `hset` with no connection opens a socket
(the trace records the open, then the close performed by `fatal`) before
the unknown-command error is raised. -/
theorem c7_unknown_opens_socket :
    (sendCommand [104, 115, 101, 116] [] ⟨none, [⟨false, []⟩], [], []⟩).2.trace =
      [Event.evOpen, Event.evClose] ∧
    (sendCommand [104, 115, 101, 116] [] ⟨none, [⟨false, []⟩], [], []⟩).1 =
      Except.error (RErr.fatalErr (unknownCmdMsg ++ [104, 115, 101, 116])) :=
  ⟨rfl, rfl⟩

/-- C8 (corrected): for a nonempty line containing no CR LF pair,
`readToCRLF` returns exactly the bytes preceding the first CR LF with the
terminator discarded (first conjunct).  But when the source is exhausted
before a terminator is detected, the loop simply runs off the stream and
the function returns no value (JS undefined) — no ProtocolError, or any
error at all, is raised (second conjunct); and an empty line is not
handled, since the CRLF check only fires once the buffer holds more than
two characters (see the counterexample). -/
theorem c8_readToCRLF_behaviour (line rest s : List Nat)
    (h1 : containsCRLF line = false) (h2 : line ≠ [])
    (h3 : containsCRLF s = false) :
    readToCRLF (line ++ 13 :: 10 :: rest) = (some line, rest) ∧
    readToCRLF s = (none, []) :=
  ⟨readToCRLF_app line rest h1 h2, readToCRLF_exhaust s h3⟩

/-- Witness for C8: the line `5` before CRLF, and the terminator-free
stream `ab`. -/
theorem c8_readToCRLF_behaviour_witness :
    (containsCRLF [53] = false) ∧ ([53] ≠ ([] : List Nat)) ∧
    (containsCRLF [97, 98] = false) ∧
    (readToCRLF ([53] ++ 13 :: 10 :: [49]) = (some [53], [49]) ∧
     readToCRLF [97, 98] = (none, [])) :=
  ⟨by decide, by decide, by decide,
   c8_readToCRLF_behaviour [53] [49] [97, 98] (by decide) (by decide) (by decide)⟩

/-- Counterexample for C8 as stated: on the stream CR LF `a` CR LF the
first CR LF pair is at the very start, so the claimed result is the empty
line — but the `buf.length() > 2` guard skips the check at length two and
the reader returns the three bytes CR LF `a` instead; and on the
terminator-free stream `ab` it returns no value rather than failing with
a ProtocolError. -/
theorem c8_readToCRLF_misses_leading_crlf :
    readToCRLF [13, 10, 97, 13, 10] = (some [13, 10, 97], []) ∧
    ([13, 10, 97] ≠ ([] : List Nat)) ∧
    readToCRLF [97, 98] = (none, []) :=
  ⟨rfl, by decide, rfl⟩

/-- C9 (corrected): for an error line beginning with the four characters
`ERR `, the surfaced message is the line with exactly those four leading
characters stripped and nothing removed from the end
(`line.substring(4, line.length)`, here `line.drop 4`); but a line NOT
beginning with that token is not kept as-is — the code prepends the fixed
text `something bad happened: ` to it. -/
theorem c9_error_message_transform (line rest : List Nat)
    (h1 : containsCRLF line = false) (h2 : line ≠ []) :
    handleErrorReply (line ++ 13 :: 10 :: rest) =
      (Except.error (RErr.errThrow
        (if errSpaceStr.isPrefixOf line then line.drop 4
         else badHappenedStr ++ line)), rest) :=
  handleErrorReply_app line rest h1 h2

/-- Witness for C9: the line `ERR bad` surfaces as `bad`. -/
theorem c9_error_message_transform_witness :
    (containsCRLF [69, 82, 82, 32, 98, 97, 100] = false) ∧
    ([69, 82, 82, 32, 98, 97, 100] ≠ ([] : List Nat)) ∧
    (handleErrorReply ([69, 82, 82, 32, 98, 97, 100] ++ 13 :: 10 :: []) =
      (Except.error (RErr.errThrow
        (if errSpaceStr.isPrefixOf [69, 82, 82, 32, 98, 97, 100]
         then [69, 82, 82, 32, 98, 97, 100].drop 4
         else badHappenedStr ++ [69, 82, 82, 32, 98, 97, 100])), [])) :=
  ⟨by decide, by decide,
   c9_error_message_transform [69, 82, 82, 32, 98, 97, 100] [] (by decide) (by decide)⟩

/-- Counterexample for C9 as stated (non-`ERR ` lines kept as-is): the
error line `WX` surfaces as `something bad happened: WX`, not as the
unchanged line `WX`. -/
theorem c9_error_message_not_verbatim :
    handleErrorReply [87, 88, 13, 10] =
      (Except.error (RErr.errThrow (badHappenedStr ++ [87, 88])), []) ∧
    badHappenedStr ++ [87, 88] ≠ [87, 88] :=
  ⟨rfl, by decide⟩

/-- C10 (confirmed): for each of setnx, sadd, sismember, zadd and zrem
the post-processor computes `result === 0 ? false : true`, so over every
value the generic decode can produce the result is `false` exactly for
the integer 0, and every other decoded value — null, a string (even the
string `0`), NaN, an array, a boolean, undefined — maps to `true`. -/
theorem c10_bool_postprocess (cmd : List Nat) (hc : cmd ∈ boolCmds) (r : RValue)
    (hr : decodedReply r = true) :
    (postProcessResults r cmd = Except.ok (RValue.vBool false) ↔ r = RValue.vInt 0) ∧
    (r ≠ RValue.vInt 0 → postProcessResults r cmd = Except.ok (RValue.vBool true)) := by
  rw [postProcess_bool cmd hc r]
  cases r <;> simp_all [jsStrictEqZero, decodedReply]

/-- Witness for C10: `sadd` receiving a nil reply post-processes to true,
and receiving the integer 0 would be the only way to get false. -/
theorem c10_bool_postprocess_witness :
    (saddStr ∈ boolCmds) ∧ (decodedReply RValue.vNull = true) ∧
    ((postProcessResults RValue.vNull saddStr = Except.ok (RValue.vBool false) ↔
        RValue.vNull = RValue.vInt 0) ∧
     (RValue.vNull ≠ RValue.vInt 0 →
        postProcessResults RValue.vNull saddStr = Except.ok (RValue.vBool true))) :=
  ⟨by decide, by decide, c10_bool_postprocess saddStr (by decide) RValue.vNull (by decide)⟩
